import Mathlib

/-!
Verification of the CP02 monitor's discovery and telemetry-acquisition core.

Shallow embedding of the C sources of the repository:
  * `src/CP02_Monitor_ESP/main/Power_Monitor/Power_Monitor.c` (telemetry parse and fetch)
  * `src/CP02_Monitor_4.3/main/power_monitor.c` (the 4.3 revision of the parser)
  * `src/CP02_Monitor_ESP/main/Power_Monitor/IP_Scanner.c` (probe, scan, address cache)
  * `src/CP02_Monitor_ESP/main/main.c` (discovery flow, scan callback)

Strings are modelled as `List Char` (C strings carry no NUL here), C `int` as
unbounded `ℤ` with explicit two's-complement wrapping where an overflowing
conversion or multiplication occurs in the source.  The `float` fields
`power` and `totalPower` only ever hold values of the form `k / 10^6` with
`k : ℤ` (the parser recomputes them as `(current * voltage) / 1000000.0f`),
so they are embedded exactly as the integer numerator `k` (microwatts); the
interpretation `asWatts` recovers the rational number of watts.  Float
rounding is abstracted away: every numeric value appearing in a concrete
theorem below is exactly representable in binary32, and the sign-level
disagreements proved below survive any rounding.  Network and NVS effects are
passed in as explicit outcome values.
-/

/- ### Small string utilities mirroring the C library calls -/

/-- Model of `strncmp(line, p, strlen p) == 0`: `p` leads the list `l`. -/
def leadsWith : List Char → List Char → Bool
  | [], _ => true
  | _ :: _, [] => false
  | a :: as, b :: bs => a == b && leadsWith as bs

/-- Model of `strchr`: split `l` at the first occurrence of `c`, returning the
part strictly before and the part strictly after; `none` when `c` is absent. -/
def splitFirst (c : Char) : List Char → Option (List Char × List Char)
  | [] => none
  | x :: xs =>
    if x = c then some ([], xs)
    else
      match splitFirst c xs with
      | none => none
      | some (pre, post) => some (x :: pre, post)

/-- Split a character list on a delimiter (keeping empty pieces). -/
def splitOnChar (c : Char) : List Char → List (List Char)
  | [] => [[]]
  | x :: xs =>
    let r := splitOnChar c xs
    if x = c then [] :: r
    else
      match r with
      | [] => [[x]]
      | h :: t => (x :: h) :: t

/-- Model of `strtok(payload, "\n")` iteration: the nonempty pieces of the
payload split at newlines (strtok collapses runs of delimiters). -/
def tokenize (payload : List Char) : List (List Char) :=
  (splitOnChar '\n' payload).filter (fun l => l ≠ [])

/-- Model of `strstr(hay, needle) != NULL`. -/
def containsSub (needle : List Char) : List Char → Bool
  | [] => leadsWith needle []
  | c :: rest => leadsWith needle (c :: rest) || containsSub needle rest

/-- Whitespace characters skipped by C `atoi`. -/
def isAsciiSpace (c : Char) : Bool :=
  c = ' ' || c = '\t' || c = '\n' || c = '\x0b' || c = '\x0c' || c = '\r'

/-- Digit-accumulation loop of C `atoi`, stopping at the first non-digit. -/
def atoiDigits : List Char → ℤ → ℤ
  | [], acc => acc
  | c :: cs, acc =>
    if c.isDigit then atoiDigits cs (acc * 10 + ((c.toNat : ℤ) - 48)) else acc

/-- Model of C `atoi`: skip whitespace, optional sign, leading digits.
(The `int`-overflow of `atoi` on absurdly long digit strings is not modelled;
theorems that care state an explicit `int`-range bound.) -/
def atoi (cs : List Char) : ℤ :=
  match cs.dropWhile isAsciiSpace with
  | '-' :: rest => - atoiDigits rest 0
  | '+' :: rest => atoiDigits rest 0
  | rest => atoiDigits rest 0

/- ### The power-model data (Power_Monitor.h lines 19-41) -/

/-- `MAX_PORTS` of `Power_Monitor.h` line 20. -/
def MAX_PORTS : Nat := 5

/-- Conversion of a C `int` value to a `uint16_t` field: reduction mod 2^16. -/
def wrap16 (z : ℤ) : Nat := (z % 65536).toNat

/-- Conversion of a C `int` value to a `uint8_t` field: reduction mod 2^8. -/
def wrap8 (z : ℤ) : Nat := (z % 256).toNat

/-- Two's-complement wrapping of a 32-bit signed `int` product (the practical
behaviour of the overflowing `current * voltage` multiplication on the target;
in ISO C the overflow is undefined). -/
def wrap32 (z : ℤ) : ℤ := (z + 2147483648) % 4294967296 - 2147483648

/-- `PortInfo` of `Power_Monitor.h` lines 29-37: `id`, `state` and
`fc_protocol` are `uint8_t`, `current` and `voltage` are `uint16_t`,
`power` is a `float` holding a number of watts of the form `k / 10^6`,
embedded exactly as the integer `k` (microwatts). -/
structure PortInfo where
  id : Nat
  state : Nat
  fc_protocol : Nat
  current : Nat
  voltage : Nat
  power : ℤ
  name : String
deriving DecidableEq

/-- Interpretation of a microwatt-scaled field as the number of watts the C
`float` holds. -/
def asWatts (z : ℤ) : ℚ := (z : ℚ) / 1000000

/-- The global `portInfos` array, as a list of length `MAX_PORTS`. -/
abbrev Ports := List PortInfo

/-- The power model shared state: `portInfos`, `totalPower`, `dataError`
(`Power_Monitor.c` lines 33-35); `totalPower` in microwatts like `power`. -/
structure PMState where
  ports : Ports
  totalPower : ℤ
  dataError : Bool
deriving DecidableEq

/-- One port of the initial state written by `PowerMonitor_Init`
(`Power_Monitor.c` lines 440-454). -/
def initPort (i : Nat) (nm : String) : PortInfo :=
  { id := i, state := 0, fc_protocol := 0, current := 0, voltage := 0,
    power := 0, name := nm }

/-- The power-model state right after `PowerMonitor_Init`. -/
def initState : PMState :=
  { ports := [initPort 0 "A", initPort 1 "C1", initPort 2 "C2",
              initPort 3 "C3", initPort 4 "C4"],
    totalPower := 0, dataError := false }

/- ### The ESP parser (`PowerMonitor_ParseData`, Power_Monitor.c 639-765) -/

/-- `"ionbridge_port_current{id="` — the 26-char prefix of line 656. -/
def currentPfxL : List Char := ("ionbridge_port_current\x7bid=").toList

/-- `"ionbridge_port_voltage{id="` — the 26-char prefix of line 683. -/
def voltagePfxL : List Char := ("ionbridge_port_voltage\x7bid=").toList

/-- `"ionbridge_port_state{id="` — the 24-char prefix of line 710. -/
def statePfxL : List Char := ("ionbridge_port_state\x7bid=").toList

/-- `"ionbridge_port_fc_protocol{id="` — the 30-char prefix of line 727. -/
def protocolPfxL : List Char := ("ionbridge_port_fc_protocol\x7bid=").toList

/-- The `'"'` character. -/
def quoteChar : Char := Char.ofNat 34

/-- The right-brace character. -/
def rbraceChar : Char := Char.ofNat 125

/-- Write through index `portId` of the `portInfos` array (no-op past the
end, which cannot happen for the guarded indices 0..4 of a 5-element list). -/
def updAt (f : PortInfo → PortInfo) : Nat → Ports → Ports
  | _, [] => []
  | 0, p :: ps => f p :: ps
  | n + 1, p :: ps => p :: updAt f n ps

/-- `portInfos[portId].current = current` with the `int`→`uint16_t` narrowing. -/
def setCurrentField (v : ℤ) (p : PortInfo) : PortInfo := { p with current := wrap16 v }

/-- `portInfos[portId].voltage = voltage` with the `int`→`uint16_t` narrowing. -/
def setVoltageField (v : ℤ) (p : PortInfo) : PortInfo := { p with voltage := wrap16 v }

/-- `portInfos[portId].state = state` with the `int`→`uint8_t` narrowing. -/
def setStateField (v : ℤ) (p : PortInfo) : PortInfo := { p with state := wrap8 v }

/-- `portInfos[portId].fc_protocol = protocol` with the `int`→`uint8_t` narrowing. -/
def setProtocolField (v : ℤ) (p : PortInfo) : PortInfo := { p with fc_protocol := wrap8 v }

/-- Outcome of the per-line body of the ESP parse loop. `loopForever` marks the
`continue` at lines 662-663/688-699 of `Power_Monitor.c`: `continue` inside the
`while (line != NULL)` loop skips the trailing `line = strtok(NULL, "\n")`, so
the same line is re-processed forever.  `undefinedBeh` marks the undefined behaviour
of `strchr(NULL + 1, ...)` (no quote anywhere in a prefix-matched line),
`*idEnd = '\0'` with `idEnd == NULL` (state/protocol branches, lines 714/730),
or `atoi((char*)1)` (no right brace after the closing quote). -/
inductive LineOutcome where
  | ok (ps : Ports)
  | loopForever
  | undefinedBeh
deriving DecidableEq

/-- The shared body of the four metric branches of `PowerMonitor_ParseData`
(lines 656-742).  `checked` is `true` for the current/voltage branches, which
test `idEnd == NULL` and `continue` (without advancing `strtok` — the
re-processing bug), and `false` for the state/protocol branches, which
dereference `idEnd` unconditionally. -/
def processMetricLine (checked : Bool) (upd : ℤ → PortInfo → PortInfo)
    (line : List Char) (ps : Ports) : LineOutcome :=
  match splitFirst quoteChar line with
  | none => .undefinedBeh
  | some (_, afterQ1) =>
    match splitFirst quoteChar afterQ1 with
    | none => if checked then .loopForever else .undefinedBeh
    | some (idCs, afterQ2) =>
      match splitFirst rbraceChar afterQ2 with
      | none => .undefinedBeh
      | some (_, valCs) =>
        if 0 ≤ atoi idCs ∧ atoi idCs < (MAX_PORTS : ℤ) then
          .ok (updAt (upd (atoi valCs)) (atoi idCs).toNat ps)
        else
          .ok ps

/-- One iteration of the ESP parse loop on one `strtok` token
(`Power_Monitor.c` lines 652-744): dispatch on the four metric-name line
markers, anything else is skipped. -/
def processLine (line : List Char) (ps : Ports) : LineOutcome :=
  if leadsWith currentPfxL line then processMetricLine true setCurrentField line ps
  else if leadsWith voltagePfxL line then processMetricLine true setVoltageField line ps
  else if leadsWith statePfxL line then processMetricLine false setStateField line ps
  else if leadsWith protocolPfxL line then processMetricLine false setProtocolField line ps
  else .ok ps

/-- The ESP parse loop over all `strtok` tokens. -/
def parseLines : List (List Char) → Ports → LineOutcome
  | [], ps => .ok ps
  | l :: ls, ps =>
    match processLine l ps with
    | .ok ps' => parseLines ls ps'
    | .loopForever => .loopForever
    | .undefinedBeh => .undefinedBeh

/-- The power recomputation of lines 748-752:
`power = (current * voltage) / 1000000.0f`, where the `uint16_t` operands are
promoted to 32-bit `int` and the product wraps past `2^31 - 1`.  In the
microwatt encoding the stored value is the wrapped product itself. -/
def computePower (p : PortInfo) : PortInfo :=
  { p with power := wrap32 ((p.current : ℤ) * (p.voltage : ℤ)) }

/-- `totalPower` accumulated over the recomputed ports (line 751). -/
def sumPowers (ps : Ports) : ℤ := (ps.map (fun p => p.power)).sum

/-- Result of running a C routine that may fail to terminate or hit
undefined behaviour on the way. -/
inductive CResult where
  | ok (st : PMState)
  | infiniteLoop
  | undefinedBehavior
deriving DecidableEq

/-- `PowerMonitor_ParseData` (`Power_Monitor.c` lines 639-765): empty payloads
return immediately; otherwise every `strtok` line is processed and then every
port's `power` (and `totalPower`) is recomputed from the stored
current/voltage pair.  `dataError` is not touched by the parser. -/
def PowerMonitor_ParseData (payload : List Char) (st : PMState) : CResult :=
  if payload = [] then .ok st
  else
    match parseLines (tokenize payload) st.ports with
    | .ok ps =>
      .ok { ports := ps.map computePower, totalPower := sumPowers (ps.map computePower),
            dataError := st.dataError }
    | .loopForever => .infiniteLoop
    | .undefinedBeh => .undefinedBehavior

/- ### The 4.3 revision (`power_monitor_parse_data`, power_monitor.c 738-863) -/

/-- The 4.3 revision's per-branch body: identical quote/brace walk, but the
malformed-line paths advance `line = strtok_r(NULL, "\n", &saveptr)` BEFORE
`continue`, so a line with a missing closing quote is skipped, not re-run.
(The missing-first-quote and missing-brace paths still run `strchr` off a
null-plus-one pointer, as in the ESP revision.) -/
def processMetricLine43 (upd : ℤ → PortInfo → PortInfo)
    (line : List Char) (ps : Ports) : LineOutcome :=
  match splitFirst quoteChar line with
  | none => .undefinedBeh
  | some (_, afterQ1) =>
    match splitFirst quoteChar afterQ1 with
    | none => .ok ps
    | some (idCs, afterQ2) =>
      match splitFirst rbraceChar afterQ2 with
      | none => .undefinedBeh
      | some (_, valCs) =>
        if 0 ≤ atoi idCs ∧ atoi idCs < (MAX_PORTS : ℤ) then
          .ok (updAt (upd (atoi valCs)) (atoi idCs).toNat ps)
        else
          .ok ps

/-- One iteration of the 4.3 parse loop: only current and voltage lines are
recognized (power_monitor.c lines 774-830). -/
def processLine43 (line : List Char) (ps : Ports) : LineOutcome :=
  if leadsWith currentPfxL line then processMetricLine43 setCurrentField line ps
  else if leadsWith voltagePfxL line then processMetricLine43 setVoltageField line ps
  else .ok ps

/-- The 4.3 parse loop. -/
def parseLines43 : List (List Char) → Ports → LineOutcome
  | [], ps => .ok ps
  | l :: ls, ps =>
    match processLine43 l ps with
    | .ok ps' => parseLines43 ls ps'
    | .loopForever => .loopForever
    | .undefinedBeh => .undefinedBeh

/-- `power_monitor_parse_data` of the 4.3 revision (lines 738-863), with its
`lineCount < 1000` cap on processed lines and the same final power
recomputation. -/
def power_monitor_parse_data (payload : List Char) (st : PMState) : CResult :=
  if payload = [] then .ok st
  else
    match parseLines43 ((tokenize payload).take 1000) st.ports with
    | .ok ps =>
      .ok { ports := ps.map computePower, totalPower := sumPowers (ps.map computePower),
            dataError := st.dataError }
    | .loopForever => .infiniteLoop
    | .undefinedBeh => .undefinedBehavior

/- ### The fetch step (`PowerMonitor_FetchData`, Power_Monitor.c 565-636,
     and `http_event_handler`, lines 324-408) -/

/-- Network outcome of one `esp_http_client_perform` call, as seen by the
event handler.  `performError` is a connect/timeout failure during which no
data event fired; `performErrorWithData` is a failure after some bytes arrived
(the `HTTP_EVENT_DISCONNECTED` arm parses them, lines 390-401);
`httpResponse` is a completed exchange: `HTTP_EVENT_ON_FINISH` hands any
accumulated body to the parser (lines 378-388) with NO status-code check —
the status is only examined afterwards in `PowerMonitor_FetchData`. -/
inductive FetchOutcome where
  | performError
  | performErrorWithData (body : List Char)
  | httpResponse (status : ℤ) (body : List Char)
deriving DecidableEq

/-- Lift the parser over the power-model state inside a fetch. -/
def parseBodyThen (body : List Char) (st : PMState) (f : PMState → PMState) : CResult :=
  match PowerMonitor_ParseData body st with
  | .ok s => .ok (f s)
  | .infiniteLoop => .infiniteLoop
  | .undefinedBehavior => .undefinedBehavior

/-- `PowerMonitor_FetchData` restricted to the power model (`portInfos`,
`totalPower`, `dataError`): the event handler parses whatever body bytes
arrived (even on a non-200 status or a failed perform), then the status check
of lines 610-629 sets `dataError`.  The refresh-interval and WiFi gates
(lines 570-578) and the client-handle reset are outside the power model. -/
def PowerMonitor_FetchData (o : FetchOutcome) (st : PMState) : CResult :=
  match o with
  | .performError => .ok { st with dataError := true }
  | .performErrorWithData body =>
    parseBodyThen body st (fun s => { s with dataError := true })
  | .httpResponse status body =>
    parseBodyThen body st (fun s => { s with dataError := decide (status ≠ 200) })

/-- A sequence of consecutive fetch attempts. -/
def runFetches : List FetchOutcome → PMState → CResult
  | [], st => .ok st
  | o :: os, st =>
    match PowerMonitor_FetchData o st with
    | .ok s => runFetches os s
    | .infiniteLoop => .infiniteLoop
    | .undefinedBehavior => .undefinedBehavior

/-- A fetch failure that delivers no payload bytes to the parser: a perform
error with no data, a perform error whose buffer stayed empty, or a non-200
response with an empty body. -/
def silentFailure : FetchOutcome → Bool
  | .performError => true
  | .performErrorWithData body => body = ([] : List Char)
  | .httpResponse status body => body = ([] : List Char) && status != 200

/- ### Derived parser notions used by the merge/consistency claims -/

/-- The port index a recognized metric line would write to: the `atoi` of the
characters between the first two quotes, when it lies in `[0, MAX_PORTS)`. -/
def metricTarget (line : List Char) : Option Nat :=
  match splitFirst quoteChar line with
  | none => none
  | some (_, afterQ1) =>
    match splitFirst quoteChar afterQ1 with
    | none => none
    | some (idCs, _) =>
      if 0 ≤ atoi idCs ∧ atoi idCs < (MAX_PORTS : ℤ) then some (atoi idCs).toNat else none

/-- Whether a line matches one of the four metric-name markers. -/
def recognizedLine (line : List Char) : Bool :=
  leadsWith currentPfxL line || leadsWith voltagePfxL line ||
    leadsWith statePfxL line || leadsWith protocolPfxL line

/-- The port index a line of the payload writes to, if any. -/
def lineTargets (line : List Char) : Option Nat :=
  if recognizedLine line then metricTarget line else none

/-- Port `j` is mentioned by some line of the payload. -/
def mentionsPort (payload : List Char) (j : Nat) : Bool :=
  (tokenize payload).any (fun l => lineTargets l == some j)

/-- A port record whose `power` field agrees with the recomputation the parser
performs (lines 748-752).  This holds for every state the program can reach:
`PowerMonitor_Init` establishes it and every parse re-establishes it. -/
def portConsistentB (p : PortInfo) : Bool :=
  p.power == wrap32 ((p.current : ℤ) * (p.voltage : ℤ))

/-- All ports power-consistent. -/
def portsConsistentB (ps : Ports) : Bool := ps.all portConsistentB

/-- The power formula as the spec states it (spec §3: `powerWatts =
currentMilliamps * voltageMillivolts / 1_000_000` watts, i.e. exactly
`current * voltage` microwatts, and `totalWatts` the sum) — the spec-side
definition, kept for comparison against the code model. -/
def specPowerFormulaB (st : PMState) : Bool :=
  st.ports.all (fun p => p.power == (p.current : ℤ) * (p.voltage : ℤ)) &&
    st.totalPower == (st.ports.map (fun p => p.power)).sum

/-- Extract the resulting state of a terminating run (used only to name
concrete parse results in closed statements). -/
def CResult.stateOr (r : CResult) (dflt : PMState) : PMState :=
  match r with
  | .ok s => s
  | _ => dflt

/- ### Concrete payloads -/

/-- Scenario C of spec §8: current 1500 mA and voltage 5000 mV on port 0. -/
def scenarioCPayload : List Char :=
  ("ionbridge_port_current\x7bid=\"0\"\x7d 1500\nionbridge_port_voltage\x7bid=\"0\"\x7d 5000\n").toList

/-- The state scenario C parses to. -/
def scenarioCResult : PMState :=
  (PowerMonitor_ParseData scenarioCPayload initState).stateOr initState

/-- A payload whose stored readings overflow the 32-bit `int` product:
50000 mA and 50000 mV on port 0 (both fit `uint16_t`; the product
2,500,000,000 exceeds 2^31 - 1). -/
def overflowPayload : List Char :=
  ("ionbridge_port_current\x7bid=\"0\"\x7d 50000\nionbridge_port_voltage\x7bid=\"0\"\x7d 50000\n").toList

/-- The state the overflow payload parses to. -/
def overflowResult : PMState :=
  (PowerMonitor_ParseData overflowPayload initState).stateOr initState

/-- A current line with a missing closing quote: prefix-matched, one quote,
no second quote — the `continue` path of lines 660-663. -/
def lonePayload : List Char :=
  ("ionbridge_port_current\x7bid=\"0\n").toList

/-- A valid current line for the out-of-range port id 99. -/
def id99Payload : List Char :=
  ("ionbridge_port_current\x7bid=\"99\"\x7d 1500\n").toList

/-- The state the id-99 payload parses to. -/
def id99Result : PMState :=
  (PowerMonitor_ParseData id99Payload initState).stateOr initState

/-- A 404 body that nevertheless carries a valid metric line. -/
def err404Body : List Char :=
  ("ionbridge_port_current\x7bid=\"0\"\x7d 999\n").toList

/- ### The prober (`IP_Scanner_CheckIP`, IP_Scanner.c 158-305) -/

/-- `IP_CHECK_RETRY_COUNT` of `IP_Scanner.c` line 34. -/
def IP_CHECK_RETRY_COUNT : Nat := 1

/-- `HTTP_MAX_RESPONSE_SIZE` of `IP_Scanner.c` line 33; the receive loop
accumulates at most `HTTP_MAX_RESPONSE_SIZE - 1` bytes (lines 253-263). -/
def HTTP_MAX_RESPONSE_SIZE : Nat := 2048

/-- The identifying marker searched for in the raw response (line 283). -/
def scanMarker : List Char := ("ionbridge_port_current").toList

/-- Network outcome of one attempt of the retry loop of `IP_Scanner_CheckIP`:
each early `continue` path (failed `socket`, failed `connect`, `select`
timeout, `SO_ERROR` set, failed `send`, empty/failed `recv`) is a separate
constructor; `received data` carries the full byte stream the peer sent
(status line, headers and body together — the code never separates them). -/
inductive ProbeAttempt where
  | socketFail
  | connectFail
  | selectTimeout
  | sockOptError
  | sendFail
  | received (data : List Char)
deriving DecidableEq

/-- One iteration of the retry loop of `IP_Scanner_CheckIP` (lines 165-301):
`true` exactly when bytes arrived and the accumulated (cap-truncated) buffer
contains `scanMarker` via `strstr` (line 283). -/
def attemptMatched (a : ProbeAttempt) : Bool :=
  match a with
  | .received data =>
    let buf := data.take (HTTP_MAX_RESPONSE_SIZE - 1)
    if buf.length = 0 then false
    else containsSub scanMarker buf
  | _ => false

/-- `IP_Scanner_CheckIP` as a function of the network outcomes of its
attempts (one outcome per iteration of the retry loop, which runs
`IP_CHECK_RETRY_COUNT` = 1 time): `true` at the first matching attempt. -/
def IP_Scanner_CheckIP (attempts : List ProbeAttempt) : Bool :=
  attempts.any attemptMatched

/- ### Scan ranges (`IP_Scanner_ScanNetwork` / `scan_task_function`) -/

/-- `MAX_PARALLEL_TASKS` of `IP_Scanner.c` line 39. -/
def MAX_PARALLEL_TASKS : Nat := 3

/-- `ips_per_task = 254 / MAX_PARALLEL_TASKS` (line 421). -/
def ipsPerTask : Nat := 254 / MAX_PARALLEL_TASKS

/-- `params[i].start_ip = i * ips_per_task + 1` (line 428). -/
def taskStart (i : Nat) : Nat := i * ipsPerTask + 1

/-- `params[i].end_ip = (i == MAX_PARALLEL_TASKS-1) ? 254 : (i+1)*ips_per_task`
(line 429). -/
def taskEnd (i : Nat) : Nat :=
  if i = MAX_PARALLEL_TASKS - 1 then 254 else (i + 1) * ipsPerTask

/-- The host octets worker `i` probes, in the order of the
`for (int i = params->start_ip; i <= params->end_ip; i++)` loop of
`scan_task_function` (lines 312-325). -/
def taskHosts (i : Nat) : List Nat :=
  List.range' (taskStart i) (taskEnd i + 1 - taskStart i)

/- ### The address cache and the per-match persistence
     (`IP_Scanner_CheckIP` lines 283-297, `scan_result_callback`
     in Power_Monitor.c lines 66-127) -/

/-- The NVS slot (`saved_ip`) plus the per-scan `found_device_count` counter
(`IP_Scanner.c` line 47; reset to 0 at scan start, line 411). -/
structure CacheModel where
  savedIP : Option String
  foundCount : Nat
deriving DecidableEq

/-- The persistence performed inside `IP_Scanner_CheckIP` on a match (lines
287-294, under `scan_semaphore`): increment `found_device_count` and call
`IP_Scanner_SaveIP` only for the first match of the scan.  Returns the new
state and the list of NVS writes performed. -/
def checkIP_persist (ip : String) (s : CacheModel) : CacheModel × List String :=
  let c := s.foundCount + 1
  if c = 1 then ({ savedIP := some ip, foundCount := c }, [ip])
  else ({ s with foundCount := c }, [])

/-- The persistence performed by `scan_result_callback` on a successful probe
(`Power_Monitor.c` line 74): `IP_Scanner_SaveIP(ip)` unconditionally (the
`strcmp` at line 81 only gates the URL-update log, not the save).  The
`ip_scan_callback` of `main.c` (line 36) behaves identically. -/
def scan_result_callback (ip : String) (s : CacheModel) : CacheModel × List String :=
  ({ s with savedIP := some ip }, [ip])

/-- The full cache effect of one matching probe during a scan: the guarded
save inside `IP_Scanner_CheckIP` followed by the callback's unconditional
save. -/
def processMatch (s : CacheModel) (ip : String) : CacheModel × List String :=
  let r1 := checkIP_persist ip s
  let r2 := scan_result_callback ip r1.1
  (r2.1, r1.2 ++ r2.2)

/-- The cache effect of a scan whose matching probes report, in order, the
addresses of `ips` (the mutex around the counter and the NVS serialization
make the per-match effects atomic in this order). -/
def processMatches : List String → CacheModel → CacheModel × List String
  | [], s => (s, [])
  | ip :: rest, s =>
    let r1 := processMatch s ip
    let r2 := processMatches rest r1.1
    (r2.1, r1.2 ++ r2.2)

/- ### `IP_Scanner_ScanNetwork` (IP_Scanner.c 335-479) -/

/-- The environment `IP_Scanner_ScanNetwork` consults before deciding what to
do: the module-init flag, the WiFi flags, and the NVS load result.
(`scannerInited` embeds `ip_scanner_initialized`.) -/
structure ScannerEnv where
  scannerInited : Bool
  wifiConnection : Bool
  wifiGotIP : Bool
  savedIP : Option String
deriving DecidableEq

/-- What one call of `IP_Scanner_ScanNetwork` does.  `cachedSkip ip` is the
lines 355-364 path: return `ESP_OK` right after a single `callback(ip, true)`,
with no worker launched and no probe performed.  `cachedValidated ip` is the
lines 372-392 path (saved address re-probed successfully, single callback,
no workers).  `scanLaunched` carries the worker ranges created at lines
427-461 and waited on at lines 465-471. -/
inductive ScanNetworkResult where
  | invalidArg
  | wifiNotConnect
  | cachedSkip (ip : String)
  | cachedValidated (ip : String)
  | scanLaunched (tasks : List (Nat × Nat))
deriving DecidableEq

/-- The scan-launch tail of `IP_Scanner_ScanNetwork` (lines 400-478): reject
an empty base prefix, otherwise create the `MAX_PARALLEL_TASKS` workers. -/
def scanFrom (baseIP : String) : ScanNetworkResult :=
  if baseIP = "" then .invalidArg
  else .scanLaunched ((List.range MAX_PARALLEL_TASKS).map (fun i => (taskStart i, taskEnd i)))

/-- `IP_Scanner_ScanNetwork` (lines 335-479).  `callbackProvided` is the
`callback != NULL` test; `cachedCheckResult` is the network's answer to the
`IP_Scanner_CheckIP(saved_ip)` validation probe of line 375 (consulted only
on the non-skip path). -/
def IP_Scanner_ScanNetwork (env : ScannerEnv) (callbackProvided : Bool)
    (skipValidation : Bool) (cachedCheckResult : Bool) (baseIP : String) :
    ScanNetworkResult :=
  if ¬ env.scannerInited ∨ ¬ callbackProvided then .invalidArg
  else if ¬ env.wifiConnection ∨ ¬ env.wifiGotIP then .wifiNotConnect
  else
    match env.savedIP with
    | some ip =>
      if skipValidation then .cachedSkip ip
      else if cachedCheckResult then .cachedValidated ip
      else scanFrom baseIP
    | none => scanFrom baseIP

/-- Callback invocations performed directly by `IP_Scanner_ScanNetwork`
itself (outside any worker). -/
def directCallbackEvents : ScanNetworkResult → List (String × Bool)
  | .cachedSkip ip => [(ip, true)]
  | .cachedValidated ip => [(ip, true)]
  | _ => []

/-- Number of scan workers a call launches. -/
def launchedWorkers : ScanNetworkResult → Nat
  | .scanLaunched ts => ts.length
  | _ => 0

/-- A well-formed metric line: `pfx` + `"` + id + `"` + right brace + value
text (as produced by the feed, e.g. `ionbridge_port_current{id="0"} 1500`). -/
def mkMetricLine (pfx idCs valCs : List Char) : List Char :=
  pfx ++ quoteChar :: (idCs ++ quoteChar :: rbraceChar :: valCs)

/-- The cache value left by a sequence of unconditional saves: the last
address saved, or the start value when no save happened. -/
def lastSaved (c0 : Option String) : List String → Option String
  | [] => c0
  | ip :: rest => lastSaved (some ip) rest

/- ### Helper lemmas -/

theorem leadsWith_refl_append (p t : List Char) : leadsWith p (p ++ t) = true := by
  induction p with
  | nil => rfl
  | cons a as ih => simp [leadsWith, ih]
theorem leadsWith_append_false (p q t : List Char)
    (h : leadsWith (p.take q.length) q = false) : leadsWith p (q ++ t) = false := by
  induction p generalizing q with
  | nil => simp [leadsWith] at h
  | cons a as ih =>
    cases q with
    | nil => simp [leadsWith] at h
    | cons b bs =>
      simp only [List.length_cons, List.take_succ_cons, leadsWith,
        Bool.and_eq_false_iff] at h
      rcases h with h | h
      · simp [leadsWith, h]
      · simp only [List.cons_append, leadsWith, List.append_eq, ih bs h, Bool.and_false]

theorem leadsWith_iff (p l : List Char) : leadsWith p l = true ↔ ∃ t, l = p ++ t := by
  induction p generalizing l with
  | nil =>
    simp only [leadsWith, List.nil_append]
    exact ⟨fun _ => ⟨l, rfl⟩, fun _ => trivial⟩
  | cons a as ih =>
    cases l with
    | nil =>
      simp only [leadsWith, List.cons_append]
      constructor
      · intro h; cases h
      · rintro ⟨t, ht⟩; cases ht
    | cons b bs =>
      simp only [leadsWith, Bool.and_eq_true, beq_iff_eq, ih, List.cons_append]
      constructor
      · rintro ⟨rfl, t, rfl⟩; exact ⟨t, rfl⟩
      · rintro ⟨t, ht⟩
        injection ht with h1 h2
        exact ⟨h1.symm, t, h2⟩

theorem containsSub_iff (n h : List Char) :
    containsSub n h = true ↔ ∃ pre post, h = pre ++ (n ++ post) := by
  induction h with
  | nil =>
    simp only [containsSub, leadsWith_iff]
    constructor
    · rintro ⟨t, ht⟩
      exact ⟨[], t, by simpa using ht⟩
    · rintro ⟨pre, post, hp⟩
      rcases List.append_eq_nil.mp hp.symm with ⟨rfl, h2⟩
      rcases List.append_eq_nil.mp h2 with ⟨rfl, rfl⟩
      exact ⟨[], rfl⟩
  | cons c rest ih =>
    simp only [containsSub, Bool.or_eq_true, leadsWith_iff, ih]
    constructor
    · rintro (⟨t, ht⟩ | ⟨pre, post, hp⟩)
      · exact ⟨[], t, by simpa using ht⟩
      · exact ⟨c :: pre, post, by simp [hp]⟩
    · rintro ⟨pre, post, hp⟩
      cases pre with
      | nil => exact Or.inl ⟨post, by simpa using hp⟩
      | cons d ds =>
        injection hp with h1 h2
        exact Or.inr ⟨ds, post, h2⟩

theorem splitFirst_append (c : Char) (xs ys : List Char) (h : c ∉ xs) :
    splitFirst c (xs ++ c :: ys) = some (xs, ys) := by
  induction xs with
  | nil => simp [splitFirst]
  | cons a as ih =>
    have ha : a ≠ c := fun hc => h (hc ▸ List.mem_cons_self a as)
    have has : c ∉ as := fun hm => h (List.mem_cons_of_mem a hm)
    simp only [List.cons_append, splitFirst, if_neg ha, List.append_eq, ih has]

theorem updAt_getElem_ne (f : PortInfo → PortInfo) (i j : Nat) (ps : Ports)
    (h : i ≠ j) : (updAt f i ps)[j]? = ps[j]? := by
  induction ps generalizing i j with
  | nil => cases i <;> simp [updAt]
  | cons p t ih =>
    cases i with
    | zero =>
      cases j with
      | zero => exact absurd rfl h
      | succ j => simp [updAt]
    | succ i =>
      cases j with
      | zero => simp [updAt]
      | succ j => simp [updAt, ih i j (fun hc => h (by rw [hc]))]

theorem map_getElem (f : PortInfo → PortInfo) (ps : Ports) (j : Nat) :
    (ps.map f)[j]? = (ps[j]?).map f := by
  induction ps generalizing j with
  | nil => rfl
  | cons p t ih =>
    cases j with
    | zero => simp
    | succ j => simp [ih j]

theorem processMetricLine_target (checked : Bool) (upd : ℤ → PortInfo → PortInfo)
    (line : List Char) (ps ps' : Ports) (j : Nat)
    (h : processMetricLine checked upd line ps = .ok ps')
    (hnt : metricTarget line ≠ some j) : ps'[j]? = ps[j]? := by
  unfold processMetricLine at h
  unfold metricTarget at hnt
  cases h1 : splitFirst quoteChar line with
  | none => simp only [h1] at h; cases h
  | some pr1 =>
    obtain ⟨pre1, afterQ1⟩ := pr1
    simp only [h1] at h hnt
    cases h2 : splitFirst quoteChar afterQ1 with
    | none =>
      simp only [h2] at h
      cases checked <;> simp at h
    | some pr2 =>
      obtain ⟨idCs, afterQ2⟩ := pr2
      simp only [h2] at h hnt
      cases h3 : splitFirst rbraceChar afterQ2 with
      | none => simp only [h3] at h; cases h
      | some pr3 =>
        obtain ⟨pre3, valCs⟩ := pr3
        simp only [h3] at h
        by_cases hr : 0 ≤ atoi idCs ∧ atoi idCs < (MAX_PORTS : ℤ)
        · rw [if_pos hr] at h hnt
          injection h with h'
          subst h'
          exact updAt_getElem_ne _ _ _ _ (fun hc => hnt (by rw [hc]))
        · rw [if_neg hr] at h
          injection h with h'
          rw [h']

theorem processLine_target (line : List Char) (ps ps' : Ports) (j : Nat)
    (h : processLine line ps = .ok ps')
    (hnt : lineTargets line ≠ some j) : ps'[j]? = ps[j]? := by
  unfold processLine at h
  unfold lineTargets recognizedLine at hnt
  by_cases h1 : leadsWith currentPfxL line = true
  · rw [if_pos h1] at h
    simp only [h1, Bool.true_or, if_true] at hnt
    exact processMetricLine_target _ _ _ _ _ _ h hnt
  · rw [if_neg h1] at h
    by_cases h2 : leadsWith voltagePfxL line = true
    · rw [if_pos h2] at h
      have : (leadsWith currentPfxL line || leadsWith voltagePfxL line ||
          leadsWith statePfxL line || leadsWith protocolPfxL line) = true := by
        simp [h2]
      rw [if_pos this] at hnt
      exact processMetricLine_target _ _ _ _ _ _ h hnt
    · rw [if_neg h2] at h
      by_cases h3 : leadsWith statePfxL line = true
      · rw [if_pos h3] at h
        have : (leadsWith currentPfxL line || leadsWith voltagePfxL line ||
            leadsWith statePfxL line || leadsWith protocolPfxL line) = true := by
          simp [h3]
        rw [if_pos this] at hnt
        exact processMetricLine_target _ _ _ _ _ _ h hnt
      · rw [if_neg h3] at h
        by_cases h4 : leadsWith protocolPfxL line = true
        · rw [if_pos h4] at h
          have : (leadsWith currentPfxL line || leadsWith voltagePfxL line ||
              leadsWith statePfxL line || leadsWith protocolPfxL line) = true := by
            simp [h4]
          rw [if_pos this] at hnt
          exact processMetricLine_target _ _ _ _ _ _ h hnt
        · rw [if_neg h4] at h
          injection h with h'
          rw [h']

theorem parseLines_target (ls : List (List Char)) (ps ps' : Ports) (j : Nat)
    (h : parseLines ls ps = .ok ps')
    (hnt : ∀ l ∈ ls, lineTargets l ≠ some j) : ps'[j]? = ps[j]? := by
  induction ls generalizing ps with
  | nil =>
    unfold parseLines at h
    injection h with h'
    rw [h']
  | cons l ls ih =>
    unfold parseLines at h
    cases hm : processLine l ps with
    | ok ps1 =>
      simp only [hm] at h
      have e1 := processLine_target l ps ps1 j hm (hnt l (List.mem_cons_self _ _))
      have e2 := ih ps1 h (fun x hx => hnt x (List.mem_cons_of_mem _ hx))
      rw [e2, e1]
    | loopForever => simp only [hm] at h; cases h
    | undefinedBeh => simp only [hm] at h; cases h

theorem parseData_ok_shape (payload : List Char) (st st' : PMState)
    (h0 : payload ≠ []) (h : PowerMonitor_ParseData payload st = .ok st') :
    ∃ ps, parseLines (tokenize payload) st.ports = .ok ps ∧
      st' = { ports := ps.map computePower,
              totalPower := sumPowers (ps.map computePower),
              dataError := st.dataError } := by
  unfold PowerMonitor_ParseData at h
  rw [if_neg h0] at h
  cases hm : parseLines (tokenize payload) st.ports with
  | ok ps =>
    simp only [hm] at h
    injection h with h'
    exact ⟨ps, rfl, h'.symm⟩
  | loopForever => simp only [hm] at h; cases h
  | undefinedBeh => simp only [hm] at h; cases h

theorem computePower_consistent (p : PortInfo) :
    portConsistentB (computePower p) = true := by
  obtain ⟨i, s, fp, c, v, pw, nm⟩ := p
  simp only [portConsistentB, computePower, beq_iff_eq]

theorem map_computePower_consistent (ps : Ports) :
    portsConsistentB (ps.map computePower) = true := by
  simp only [portsConsistentB, List.all_eq_true]
  intro p hp
  rcases List.mem_map.mp hp with ⟨q, _, rfl⟩
  exact computePower_consistent q

theorem computePower_of_consistent (p : PortInfo) (hc : portConsistentB p = true) :
    computePower p = p := by
  obtain ⟨i, s, fp, c, v, pw, nm⟩ := p
  simp only [portConsistentB, beq_iff_eq] at hc
  simp only [computePower]
  rw [← hc]

/-- Power-consistency is an invariant of the program: the initial state has it
and every terminating parse preserves it (so every reachable power-model
state satisfies it). -/
theorem parseData_preserves_consistency (payload : List Char) (st st' : PMState)
    (h : PowerMonitor_ParseData payload st = .ok st')
    (hc : portsConsistentB st.ports = true) : portsConsistentB st'.ports = true := by
  by_cases h0 : payload = []
  · unfold PowerMonitor_ParseData at h
    rw [if_pos h0] at h
    injection h with h'
    rw [← h']
    exact hc
  · rcases parseData_ok_shape payload st st' h0 h with ⟨ps, _, rfl⟩
    exact map_computePower_consistent ps

theorem initState_consistent : portsConsistentB initState.ports = true := by decide

theorem splitFirst_self (c : Char) (ys : List Char) :
    splitFirst c (c :: ys) = some ([], ys) := by
  simp [splitFirst]

theorem processLine_current_dispatch (tail : List Char) (ps : Ports) :
    processLine (currentPfxL ++ tail) ps =
      processMetricLine true setCurrentField (currentPfxL ++ tail) ps := by
  unfold processLine
  rw [leadsWith_refl_append]
  rfl

theorem processLine_voltage_dispatch (tail : List Char) (ps : Ports) :
    processLine (voltagePfxL ++ tail) ps =
      processMetricLine true setVoltageField (voltagePfxL ++ tail) ps := by
  unfold processLine
  rw [leadsWith_append_false currentPfxL voltagePfxL tail (by decide),
    leadsWith_refl_append]
  rfl

theorem processLine_state_dispatch (tail : List Char) (ps : Ports) :
    processLine (statePfxL ++ tail) ps =
      processMetricLine false setStateField (statePfxL ++ tail) ps := by
  unfold processLine
  rw [leadsWith_append_false currentPfxL statePfxL tail (by decide),
    leadsWith_append_false voltagePfxL statePfxL tail (by decide),
    leadsWith_refl_append]
  rfl

theorem processLine_protocol_dispatch (tail : List Char) (ps : Ports) :
    processLine (protocolPfxL ++ tail) ps =
      processMetricLine false setProtocolField (protocolPfxL ++ tail) ps := by
  unfold processLine
  rw [leadsWith_append_false currentPfxL protocolPfxL tail (by decide),
    leadsWith_append_false voltagePfxL protocolPfxL tail (by decide),
    leadsWith_append_false statePfxL protocolPfxL tail (by decide),
    leadsWith_refl_append]
  rfl

theorem processMetricLine_eval (checked : Bool) (upd : ℤ → PortInfo → PortInfo)
    (pfx idCs valCs : List Char) (ps : Ports)
    (hpfx : quoteChar ∉ pfx) (hq : quoteChar ∉ idCs) :
    processMetricLine checked upd (mkMetricLine pfx idCs valCs) ps =
      if 0 ≤ atoi idCs ∧ atoi idCs < (MAX_PORTS : ℤ) then
        .ok (updAt (upd (atoi valCs)) (atoi idCs).toNat ps)
      else .ok ps := by
  unfold processMetricLine mkMetricLine
  simp only [splitFirst_append quoteChar pfx _ hpfx,
    splitFirst_append quoteChar idCs _ hq, splitFirst_self]

theorem wrap32_of_lt (z : ℤ) (h0 : 0 ≤ z) (h : z < 2147483648) : wrap32 z = z := by
  unfold wrap32
  omega

theorem ports_getElem_mem (ps : Ports) (j : Nat) (p : PortInfo)
    (h : ps[j]? = some p) : p ∈ ps := by
  induction ps generalizing j with
  | nil => cases h
  | cons q t ih =>
    cases j with
    | zero =>
      simp only [List.getElem?_cons_zero, Option.some.injEq] at h
      rw [← h]
      exact List.mem_cons_self q t
    | succ j =>
      simp only [List.getElem?_cons_succ] at h
      exact List.mem_cons_of_mem q (ih j h)

theorem lastSaved_mem (ips : List String) (c0 : Option String) (h : ips ≠ []) :
    ∃ l, lastSaved c0 ips = some l ∧ l ∈ ips := by
  induction ips generalizing c0 with
  | nil => exact absurd rfl h
  | cons ip rest ih =>
    cases rest with
    | nil => exact ⟨ip, rfl, List.mem_cons_self ip []⟩
    | cons r rs =>
      rcases ih (some ip) (by simp) with ⟨l, hl, hm⟩
      exact ⟨l, hl, List.mem_cons_of_mem ip hm⟩

theorem processMatch_pos (ip : String) (c0 : Option String) (k : Nat) :
    processMatch ⟨c0, k + 1⟩ ip = (⟨some ip, k + 1 + 1⟩, [ip]) := by
  simp [processMatch, checkIP_persist, scan_result_callback]

theorem processMatch_first (ip : String) (c0 : Option String) :
    processMatch ⟨c0, 0⟩ ip = (⟨some ip, 1⟩, [ip, ip]) := by
  simp [processMatch, checkIP_persist, scan_result_callback]

theorem processMatches_pos (ips : List String) (c0 : Option String) (k : Nat) :
    processMatches ips ⟨c0, k + 1⟩ = (⟨lastSaved c0 ips, k + 1 + ips.length⟩, ips) := by
  induction ips generalizing c0 k with
  | nil => simp [processMatches, lastSaved]
  | cons ip rest ih =>
    simp only [processMatches, processMatch_pos, ih (some ip) (k + 1)]
    simp only [lastSaved, List.length_cons, List.singleton_append, Prod.mk.injEq,
      CacheModel.mk.injEq]
    refine ⟨⟨trivial, by omega⟩, trivial⟩

theorem silent_fetch (o : FetchOutcome) (st : PMState) (h : silentFailure o = true) :
    PowerMonitor_FetchData o st =
      .ok { ports := st.ports, totalPower := st.totalPower, dataError := true } := by
  cases o with
  | performError => rfl
  | performErrorWithData body =>
    have hb : body = [] := by simpa [silentFailure] using h
    subst hb
    rfl
  | httpResponse status body =>
    have hb : body = [] ∧ status ≠ 200 := by simpa [silentFailure] using h
    obtain ⟨hb1, hb2⟩ := hb
    subst hb1
    unfold PowerMonitor_FetchData parseBodyThen PowerMonitor_ParseData
    simp [hb2]

theorem runFetches_silent (os : List FetchOutcome) (st : PMState) (h1 : os ≠ [])
    (h2 : ∀ o ∈ os, silentFailure o = true) :
    runFetches os st =
      .ok { ports := st.ports, totalPower := st.totalPower, dataError := true } := by
  induction os generalizing st with
  | nil => exact absurd rfl h1
  | cons o rest ih =>
    have ho := silent_fetch o st (h2 o (List.mem_cons_self o rest))
    unfold runFetches
    simp only [ho]
    cases rest with
    | nil => rfl
    | cons r rs =>
      exact ih { ports := st.ports, totalPower := st.totalPower, dataError := true }
        (by simp) (fun x hx => h2 x (List.mem_cons_of_mem o hx))

/- ### Claim theorems -/

/-- C7: a scan partitions the host range 1..254 into 3 contiguous,
pairwise-disjoint ranges whose union is exactly 1..254, with
`start_i = i*84 + 1`, `end_i = (i+1)*84` for `i < 2` and `end_2 = 254`, and
each worker probes the hosts of its range strictly sequentially in ascending
order. -/
theorem C7_partition :
    MAX_PARALLEL_TASKS = 3 ∧ ipsPerTask = 84 ∧
    (taskStart 0 = 0 * 84 + 1 ∧ taskStart 1 = 1 * 84 + 1 ∧ taskStart 2 = 2 * 84 + 1) ∧
    (taskEnd 0 = 1 * 84 ∧ taskEnd 1 = 2 * 84 ∧ taskEnd 2 = 254) ∧
    taskHosts 0 ++ taskHosts 1 ++ taskHosts 2 = List.range' 1 254 ∧
    ((taskHosts 0).inter (taskHosts 1) = [] ∧ (taskHosts 0).inter (taskHosts 2) = [] ∧
      (taskHosts 1).inter (taskHosts 2) = []) ∧
    (List.Chain' (fun a b => a < b) (taskHosts 0) ∧
      List.Chain' (fun a b => a < b) (taskHosts 1) ∧
      List.Chain' (fun a b => a < b) (taskHosts 2)) := by
  refine ⟨by decide, by decide, by decide, by decide,
    by set_option maxRecDepth 40000 in decide,
    by set_option maxRecDepth 40000 in decide,
    (List.pairwise_lt_range' _ _).chain', (List.pairwise_lt_range' _ _).chain',
    (List.pairwise_lt_range' _ _).chain'⟩

/-- C2 (code bug): the spec requires lines failing the quote/brace structure
to be skipped with the parse terminating normally, and this is clearly the
intent of the code (it logs "Invalid format" and `continue`s, and the 4.3
revision of the same repository advances `strtok_r` before the `continue`);
but in the ESP revision `continue` skips the `line = strtok(NULL, "\n")` at
the bottom of the `while` loop, so a current line with a missing closing
quote is re-processed forever: the parse of `ionbridge_port_current{id="0\n`
never terminates, while the 4.3 parser skips it and returns the state
unchanged. -/
theorem C2_divergence :
    PowerMonitor_ParseData lonePayload initState = .infiniteLoop ∧
    power_monitor_parse_data lonePayload initState = .ok initState := by
  decide

/-- C10: whenever the scanner is operational (initialized, callback given,
WiFi up) with a saved address in the cache and `skip_validation = true`,
`IP_Scanner_ScanNetwork` returns success immediately after one
`callback(saved, true)` invocation, launching no workers and probing
nothing — independent of the outcome `chk` of any validation of that same
address (in `app_main` this call is made with `skip_validation = true` right
after `validate_ip(saved_ip)` returned `false`). -/
theorem C10_cached_skip (env : ScannerEnv) (cb skip chk : Bool)
    (baseIP : String) (ip : String)
    (h1 : env.scannerInited = true) (h2 : env.wifiConnection = true)
    (h3 : env.wifiGotIP = true) (h4 : env.savedIP = some ip)
    (h5 : skip = true) (hcb : cb = true) :
    IP_Scanner_ScanNetwork env cb skip chk baseIP = .cachedSkip ip ∧
    directCallbackEvents (IP_Scanner_ScanNetwork env cb skip chk baseIP) = [(ip, true)] ∧
    launchedWorkers (IP_Scanner_ScanNetwork env cb skip chk baseIP) = 0 := by
  subst h5 hcb
  have he : IP_Scanner_ScanNetwork env true true chk baseIP = .cachedSkip ip := by
    unfold IP_Scanner_ScanNetwork
    rw [h1, h2, h3, h4]
    simp
  exact ⟨he, by rw [he]; rfl, by rw [he]; rfl⟩

/-- Witness for C10 at a concrete environment, with `chk = false`
(validation of the cached address has just failed). -/
theorem C10_witness :
    IP_Scanner_ScanNetwork ⟨true, true, true, some "192.168.1.77"⟩ true true false "192.168.1."
      = .cachedSkip "192.168.1.77" ∧
    directCallbackEvents (IP_Scanner_ScanNetwork ⟨true, true, true, some "192.168.1.77"⟩
      true true false "192.168.1.") = [("192.168.1.77", true)] ∧
    launchedWorkers (IP_Scanner_ScanNetwork ⟨true, true, true, some "192.168.1.77"⟩
      true true false "192.168.1.") = 0 :=
  C10_cached_skip ⟨true, true, true, some "192.168.1.77"⟩ true true false "192.168.1."
    "192.168.1.77" rfl rfl rfl rfl rfl rfl

/-- C6: a probe reports `matched = true` iff the attempt completed the TCP
connect + HTTP exchange with a nonempty byte stream whose accumulated bytes
(status line, headers and body together, truncated at the 2047-byte buffer
cap) contain the literal marker `ionbridge_port_current`; every connect
failure, timeout, empty response, or response lacking the marker yields
`matched = false` (never an error). -/
theorem C6_probe_iff (a : ProbeAttempt) :
    IP_Scanner_CheckIP [a] = true ↔
      ∃ data, a = .received data ∧ data ≠ [] ∧
        ∃ pre post,
          data.take (HTTP_MAX_RESPONSE_SIZE - 1) = pre ++ (scanMarker ++ post) := by
  cases a with
  | socketFail => simp [IP_Scanner_CheckIP, attemptMatched]
  | connectFail => simp [IP_Scanner_CheckIP, attemptMatched]
  | selectTimeout => simp [IP_Scanner_CheckIP, attemptMatched]
  | sockOptError => simp [IP_Scanner_CheckIP, attemptMatched]
  | sendFail => simp [IP_Scanner_CheckIP, attemptMatched]
  | received data =>
    simp only [IP_Scanner_CheckIP, List.any_cons, List.any_nil, Bool.or_false,
      attemptMatched, ProbeAttempt.received.injEq, exists_eq_left']
    by_cases hd : data = []
    · subst hd
      simp
    · have hlen : ¬ (data.take (HTTP_MAX_RESPONSE_SIZE - 1)).length = 0 := by
        simp only [List.length_take, HTTP_MAX_RESPONSE_SIZE]
        rcases data with _ | ⟨c, cs⟩
        · exact absurd rfl hd
        · simp
      rw [if_neg hlen, containsSub_iff]
      simp [hd]

/-- C1 (counterexample): the claim's formula `power = current * voltage /
1_000_000` watts (i.e. `power = current * voltage` microwatts) fails on the
code: parsing 50000 mA / 50000 mV on port 0 (both stored exactly in the
`uint16_t` fields) makes the 32-bit `int` product wrap to a negative value, so
the stored power is -1794967296 µW instead of the 2500000000 µW the formula
demands. -/
theorem C1_counterexample :
    PowerMonitor_ParseData overflowPayload initState = .ok overflowResult ∧
    specPowerFormulaB overflowResult = false ∧
    overflowResult.ports.map (fun p => (p.current, p.voltage, p.power)) =
      [(50000, 50000, -1794967296), (0, 0, 0), (0, 0, 0), (0, 0, 0), (0, 0, 0)] := by
  decide

/-- C1 (amended): after every successful parse of a nonempty payload, every
port's stored power equals the two's-complement-wrapped 32-bit product
`wrap32 (current * voltage)` microwatts — which equals `current * voltage /
1_000_000` watts exactly whenever the product is below 2^31 — and
`totalPower` is the sum of the per-port powers; in particular scenario C
(1500 mA, 5000 mV on port 0 from the all-zero initial state) stores
7500000 µW = 7.5 W on port 0 with `totalPower` 7.5 W and `dataError` still
false. -/
theorem C1_power_formula (payload : List Char) (st st' : PMState)
    (h0 : payload ≠ []) (h : PowerMonitor_ParseData payload st = .ok st') :
    (∀ p ∈ st'.ports, p.power = wrap32 ((p.current : ℤ) * (p.voltage : ℤ)) ∧
        ((p.current : ℤ) * (p.voltage : ℤ) < 2147483648 →
          p.power = (p.current : ℤ) * (p.voltage : ℤ))) ∧
    st'.totalPower = sumPowers st'.ports ∧
    (PowerMonitor_ParseData scenarioCPayload initState = .ok scenarioCResult ∧
      scenarioCResult.ports.map (fun p => p.power) = [7500000, 0, 0, 0, 0] ∧
      asWatts 7500000 = 7.5 ∧ scenarioCResult.totalPower = 7500000 ∧
      asWatts scenarioCResult.totalPower = 7.5 ∧
      scenarioCResult.dataError = false) := by
  rcases parseData_ok_shape payload st st' h0 h with ⟨ps, _, rfl⟩
  have htot : scenarioCResult.totalPower = 7500000 := by decide
  refine ⟨?_, rfl, by decide, by decide, by norm_num [asWatts], htot,
    by rw [htot]; norm_num [asWatts], by decide⟩
  intro p hp
  rcases List.mem_map.mp hp with ⟨q, _, rfl⟩
  obtain ⟨i, s, fp, c, v, pw, nm⟩ := q
  simp only [computePower]
  refine ⟨trivial, fun hlt => ?_⟩
  exact wrap32_of_lt _ (Int.mul_nonneg (Int.natCast_nonneg c) (Int.natCast_nonneg v)) hlt

/-- Witness for C1 at scenario C. -/
theorem C1_witness :
    scenarioCPayload ≠ [] ∧
    PowerMonitor_ParseData scenarioCPayload initState = .ok scenarioCResult ∧
    (∀ p ∈ scenarioCResult.ports,
      p.power = wrap32 ((p.current : ℤ) * (p.voltage : ℤ))) :=
  ⟨by decide, by decide,
    fun p hp =>
      ((C1_power_formula scenarioCPayload initState scenarioCResult
        (by decide) (by decide)).1 p hp).1⟩

/-- C3: any well-formed metric line (any of the four recognized markers)
whose extracted port id lies outside `[0, MAX_PORTS)` is ignored: the line's
processing completes normally and returns the port array unchanged, so no
field of any port is modified by it. -/
theorem C3_out_of_range (pfx : List Char)
    (hp : pfx = currentPfxL ∨ pfx = voltagePfxL ∨ pfx = statePfxL ∨ pfx = protocolPfxL)
    (idCs valCs : List Char) (hq : quoteChar ∉ idCs)
    (hid : ¬ (0 ≤ atoi idCs ∧ atoi idCs < (MAX_PORTS : ℤ))) (ps : Ports) :
    processLine (mkMetricLine pfx idCs valCs) ps = .ok ps := by
  rcases hp with rfl | rfl | rfl | rfl
  · rw [show mkMetricLine currentPfxL idCs valCs =
        currentPfxL ++ (quoteChar :: (idCs ++ quoteChar :: rbraceChar :: valCs)) from rfl,
      processLine_current_dispatch]
    rw [show currentPfxL ++ (quoteChar :: (idCs ++ quoteChar :: rbraceChar :: valCs)) =
        mkMetricLine currentPfxL idCs valCs from rfl]
    rw [processMetricLine_eval true setCurrentField currentPfxL idCs valCs ps (by decide) hq]
    rw [if_neg hid]
  · rw [show mkMetricLine voltagePfxL idCs valCs =
        voltagePfxL ++ (quoteChar :: (idCs ++ quoteChar :: rbraceChar :: valCs)) from rfl,
      processLine_voltage_dispatch]
    rw [show voltagePfxL ++ (quoteChar :: (idCs ++ quoteChar :: rbraceChar :: valCs)) =
        mkMetricLine voltagePfxL idCs valCs from rfl]
    rw [processMetricLine_eval true setVoltageField voltagePfxL idCs valCs ps (by decide) hq]
    rw [if_neg hid]
  · rw [show mkMetricLine statePfxL idCs valCs =
        statePfxL ++ (quoteChar :: (idCs ++ quoteChar :: rbraceChar :: valCs)) from rfl,
      processLine_state_dispatch]
    rw [show statePfxL ++ (quoteChar :: (idCs ++ quoteChar :: rbraceChar :: valCs)) =
        mkMetricLine statePfxL idCs valCs from rfl]
    rw [processMetricLine_eval false setStateField statePfxL idCs valCs ps (by decide) hq]
    rw [if_neg hid]
  · rw [show mkMetricLine protocolPfxL idCs valCs =
        protocolPfxL ++ (quoteChar :: (idCs ++ quoteChar :: rbraceChar :: valCs)) from rfl,
      processLine_protocol_dispatch]
    rw [show protocolPfxL ++ (quoteChar :: (idCs ++ quoteChar :: rbraceChar :: valCs)) =
        mkMetricLine protocolPfxL idCs valCs from rfl]
    rw [processMetricLine_eval false setProtocolField protocolPfxL idCs valCs ps (by decide) hq]
    rw [if_neg hid]

/-- Witness for C3 at `id="99"` (the spec's own example), plus the
whole-payload evaluation: the payload holding only that line parses to the
initial state with every reading still zero. -/
theorem C3_witness :
    (¬ (0 ≤ atoi (("99").toList) ∧ atoi (("99").toList) < (MAX_PORTS : ℤ))) ∧
    processLine (mkMetricLine currentPfxL (("99").toList) ((" 1500").toList))
      initState.ports = .ok initState.ports ∧
    PowerMonitor_ParseData id99Payload initState = .ok id99Result ∧
    id99Result.ports.map (fun p => (p.current, p.voltage, p.state, p.fc_protocol)) =
      [(0, 0, 0, 0), (0, 0, 0, 0), (0, 0, 0, 0), (0, 0, 0, 0), (0, 0, 0, 0)] :=
  ⟨by decide,
    C3_out_of_range currentPfxL (Or.inl rfl) (("99").toList) ((" 1500").toList)
      (by decide) (by decide) initState.ports,
    by decide, by decide⟩

/-- C9 (implicit): parsed current and voltage values land in `uint16_t`
fields, so for every in-`int`-range parsed value `v` the stored field equals
`v mod 2^16`: a well-formed current (resp. voltage) line for port `j` stores
`(atoi value) % 65536` into that port's `current` (resp. `voltage`). -/
theorem C9_uint16_wrap (idCs valCs : List Char) (ps : Ports) (j : Nat)
    (hq : quoteChar ∉ idCs) (hid : atoi idCs = (j : ℤ)) (hj : j < MAX_PORTS)
    (_hrange : (atoi valCs).natAbs ≤ 2147483647) :
    processLine (mkMetricLine currentPfxL idCs valCs) ps =
      .ok (updAt (fun p => { p with current := ((atoi valCs) % 65536).toNat }) j ps) ∧
    processLine (mkMetricLine voltagePfxL idCs valCs) ps =
      .ok (updAt (fun p => { p with voltage := ((atoi valCs) % 65536).toNat }) j ps) := by
  have hr : 0 ≤ atoi idCs ∧ atoi idCs < (MAX_PORTS : ℤ) := by
    rw [hid]
    exact ⟨Int.natCast_nonneg j, by exact_mod_cast hj⟩
  have ht : (atoi idCs).toNat = j := by rw [hid]; exact Int.toNat_natCast j
  constructor
  · rw [show mkMetricLine currentPfxL idCs valCs =
        currentPfxL ++ (quoteChar :: (idCs ++ quoteChar :: rbraceChar :: valCs)) from rfl,
      processLine_current_dispatch]
    rw [show currentPfxL ++ (quoteChar :: (idCs ++ quoteChar :: rbraceChar :: valCs)) =
        mkMetricLine currentPfxL idCs valCs from rfl]
    rw [processMetricLine_eval true setCurrentField currentPfxL idCs valCs ps (by decide) hq]
    rw [if_pos hr, ht]
    rfl
  · rw [show mkMetricLine voltagePfxL idCs valCs =
        voltagePfxL ++ (quoteChar :: (idCs ++ quoteChar :: rbraceChar :: valCs)) from rfl,
      processLine_voltage_dispatch]
    rw [show voltagePfxL ++ (quoteChar :: (idCs ++ quoteChar :: rbraceChar :: valCs)) =
        mkMetricLine voltagePfxL idCs valCs from rfl]
    rw [processMetricLine_eval true setVoltageField voltagePfxL idCs valCs ps (by decide) hq]
    rw [if_pos hr, ht]
    rfl

/-- Witness for C9: value 70000 wraps to 4464 and value -5 wraps to 65531 in
the stored `uint16_t` field. -/
theorem C9_witness :
    (quoteChar ∉ (("0").toList)) ∧ atoi (("0").toList) = ((0 : Nat) : ℤ) ∧
    processLine (mkMetricLine currentPfxL (("0").toList) ((" 70000").toList))
        initState.ports =
      .ok (updAt (fun p => { p with current := ((atoi ((" 70000").toList)) % 65536).toNat })
        0 initState.ports) ∧
    ((atoi ((" 70000").toList)) % 65536).toNat = 4464 ∧
    ((atoi (("-5").toList)) % 65536).toNat = 65531 :=
  ⟨by decide, by decide,
    (C9_uint16_wrap (("0").toList) ((" 70000").toList) initState.ports 0
      (by decide) (by decide) (by decide) (by decide)).1,
    by decide, by decide⟩

/-- C4: parsing is a merge.  For every payload and every port index
`j < MAX_PORTS` mentioned by no line of the payload, the port's whole record
(current, voltage, state, protocol, power — and name) after a terminating
parse equals its record before, provided the pre-state is power-consistent
(which `initState_consistent` and `parseData_preserves_consistency` show
holds for every state the program reaches). -/
theorem C4_merge (payload : List Char) (st st' : PMState) (j : Nat)
    (_hj : j < MAX_PORTS) (hcons : portsConsistentB st.ports = true)
    (hok : PowerMonitor_ParseData payload st = .ok st')
    (hnm : mentionsPort payload j = false) :
    st'.ports[j]? = st.ports[j]? := by
  by_cases h0 : payload = []
  · unfold PowerMonitor_ParseData at hok
    rw [if_pos h0] at hok
    injection hok with h'
    rw [← h']
  · rcases parseData_ok_shape payload st st' h0 hok with ⟨ps, hps, rfl⟩
    have hnt : ∀ l ∈ tokenize payload, lineTargets l ≠ some j := by
      intro l hl he
      have hb : mentionsPort payload j = true := by
        unfold mentionsPort
        rw [List.any_eq_true]
        exact ⟨l, hl, by rw [he]; exact beq_self_eq_true (some j)⟩
      rw [hb] at hnm
      cases hnm
    have e := parseLines_target (tokenize payload) st.ports ps j hps hnt
    show (ps.map computePower)[j]? = st.ports[j]?
    rw [map_getElem, e]
    cases hq : st.ports[j]? with
    | none => rfl
    | some p =>
      have hpc : portConsistentB p = true :=
        List.all_eq_true.mp hcons p (ports_getElem_mem st.ports j p hq)
      simp [computePower_of_consistent p hpc]

/-- Witness for C4: scenario C's payload mentions only port 0; parsing it
from the initial state leaves port 1 exactly as it was. -/
theorem C4_witness :
    (1 < MAX_PORTS) ∧ portsConsistentB initState.ports = true ∧
    PowerMonitor_ParseData scenarioCPayload initState = .ok scenarioCResult ∧
    mentionsPort scenarioCPayload 1 = false ∧
    scenarioCResult.ports[1]? = initState.ports[1]? :=
  ⟨by decide, by decide, by decide, by decide,
    C4_merge scenarioCPayload initState scenarioCResult 1
      (by decide) (by decide) (by decide) (by decide)⟩

/-- C5 (counterexample): the claim says the first accepted match writes the
cache exactly once and an identical subsequent match is not re-persisted.
In the code every successful probe saves twice on the first match (the
guarded first-match save inside `IP_Scanner_CheckIP` plus the unconditional
`IP_Scanner_SaveIP` in `scan_result_callback`) and once more per further
match even when the value is identical: one match yields 2 NVS writes, two
identical matches yield 3, never the claimed 1. -/
theorem C5_counterexample :
    (processMatches [("10.0.0.5")] ⟨none, 0⟩).2 = [("10.0.0.5"), ("10.0.0.5")] ∧
    ¬ (processMatches [("10.0.0.5")] ⟨none, 0⟩).2.length = 1 ∧
    (processMatches [("10.0.0.5"), ("10.0.0.5")] ⟨none, 0⟩).2.length = 3 := by
  decide

/-- C5 (amended): within one scan (counter starts at 0), every matching probe
persists its address — the first one twice (guarded save inside the probe,
then the callback's unconditional save), each later one once more via the
callback — for a total of `n + 1` NVS writes for `n` matches; every value
ever written is one of the matched addresses, and the cache ends up holding
exactly the last matched address (one of the probed addresses, never a mix),
regardless of what the cache held before the scan. -/
theorem processMatches_one (ips : List String) (c0 : Option String) :
    processMatches ips ⟨c0, 1⟩ = (⟨lastSaved c0 ips, 1 + ips.length⟩, ips) := by
  simpa using processMatches_pos ips c0 0

theorem C5_cache_writes (ips : List String) (c0 : Option String) (h : ips ≠ []) :
    (processMatches ips ⟨c0, 0⟩).1.savedIP = lastSaved none ips ∧
    (processMatches ips ⟨c0, 0⟩).2.length = ips.length + 1 ∧
    (∀ w ∈ (processMatches ips ⟨c0, 0⟩).2, w ∈ ips) ∧
    (∃ l, lastSaved none ips = some l ∧ l ∈ ips) := by
  obtain ⟨a, rest, rfl⟩ : ∃ a rest, ips = a :: rest := by
    cases ips with
    | nil => exact absurd rfl h
    | cons a rest => exact ⟨a, rest, rfl⟩
  have hstep : processMatches (a :: rest) ⟨c0, 0⟩ =
      (⟨lastSaved (some a) rest, 1 + rest.length⟩, [a, a] ++ rest) := by
    unfold processMatches
    rw [processMatch_first]
    dsimp only
    rw [processMatches_one rest (some a)]
  rw [hstep]
  refine ⟨rfl, ?_, ?_, lastSaved_mem (a :: rest) none (by simp)⟩
  · simp only [List.length_append, List.length_cons, List.length_nil]
    omega
  · intro w hw
    rcases List.mem_append.mp hw with hw | hw
    · rcases List.mem_cons.mp hw with rfl | hw
      · exact List.mem_cons_self w rest
      · rcases List.mem_cons.mp hw with rfl | hw
        · exact List.mem_cons_self w rest
        · cases hw
    · exact List.mem_cons_of_mem a hw

/-- Witness for C5 at two distinct matches: the cache ends holding the last
match, with three writes, all of them matched addresses. -/
theorem C5_witness :
    (([("10.0.0.5"), ("10.0.0.9")] : List String) ≠ []) ∧
    (processMatches [("10.0.0.5"), ("10.0.0.9")] ⟨none, 0⟩).1.savedIP =
      lastSaved none [("10.0.0.5"), ("10.0.0.9")] ∧
    lastSaved none [("10.0.0.5"), ("10.0.0.9")] = some ("10.0.0.9") ∧
    (processMatches [("10.0.0.5"), ("10.0.0.9")] ⟨none, 0⟩).2.length = 3 :=
  ⟨by decide,
    (C5_cache_writes [("10.0.0.5"), ("10.0.0.9")] none (by decide)).1,
    by decide,
    (C5_cache_writes [("10.0.0.5"), ("10.0.0.9")] none (by decide)).2.1⟩

/-- C8 (counterexample): the claim includes non-200 statuses among the fetch
failures that "leave every previously-parsed port reading unchanged", but the
HTTP event handler hands any received body to the parser before the status is
checked: a 404 response whose body carries a valid metric line overwrites
port 0's current (0 → 999) and recomputes the powers, and only then sets the
data-error flag. -/
theorem C8_counterexample :
    PowerMonitor_FetchData (.httpResponse 404 err404Body) initState =
      .ok { ports := (PowerMonitor_ParseData err404Body initState).stateOr initState |>.ports,
            totalPower := 0, dataError := true } ∧
    ((PowerMonitor_FetchData (.httpResponse 404 err404Body) initState).stateOr initState).ports.map
        (fun p => p.current) = [999, 0, 0, 0, 0] ∧
    initState.ports.map (fun p => p.current) = [0, 0, 0, 0, 0] ∧
    ((PowerMonitor_FetchData (.httpResponse 404 err404Body) initState).stateOr
      initState).dataError = true := by
  decide

/-- C8 (amended): every nonempty sequence of consecutive fetch failures that
delivers no payload bytes (perform errors without data, perform errors whose
buffer stayed empty, non-200 responses with an empty body) sets only the
data-error flag, leaving every port reading and the total power unchanged;
an empty payload handed to the parser returns the state unchanged.  (A
failure that does deliver body bytes is handed to the parser first, as the
counterexample shows.) -/
theorem C8_silent_failures (os : List FetchOutcome) (st : PMState)
    (h1 : os ≠ []) (h2 : ∀ o ∈ os, silentFailure o = true) :
    runFetches os st =
      .ok { ports := st.ports, totalPower := st.totalPower, dataError := true } ∧
    PowerMonitor_ParseData [] st = .ok st :=
  ⟨runFetches_silent os st h1 h2, rfl⟩

/-- Witness for C8: three consecutive timeouts from the initial state leave
every reading and the total unchanged and only flip `dataError`. -/
theorem C8_witness :
    (([FetchOutcome.performError, FetchOutcome.performError, FetchOutcome.performError] :
        List FetchOutcome) ≠ []) ∧
    runFetches [FetchOutcome.performError, FetchOutcome.performError,
        FetchOutcome.performError] initState =
      .ok { ports := initState.ports, totalPower := initState.totalPower,
            dataError := true } :=
  ⟨by decide,
    (C8_silent_failures
      [FetchOutcome.performError, FetchOutcome.performError, FetchOutcome.performError]
      initState (by decide) (by decide)).1⟩
